import Mathlib

/-!
Shallow embedding of the fallback structural validator in
src/packages/brand-system/bin/schema_validate.py: the functions
resolve_pointer, resolve_ref, type_matches and validate, together with the
pieces of the Python runtime they rely on (dict lookup, == equality between
values, posix path manipulation, str.replace / str.split / str.partition).

Modelling conventions:
- Parsed documents are values of the inductive type JSON.  Python bool is a
  separate constructor (the isinstance(_, bool) exclusions in type_matches
  are therefore inherent in the constructors), and pyEq below restores the
  Python cross-type equality True == 1 == 1.0.  A Python float is carried as
  its exact rational value; float repr strings are not modelled exactly.
- The filesystem plus json.load is a pure map fs : String → Option JSON from
  a normalized path to the parsed document (none = missing or unparsable
  file).  The process-wide SCHEMA_CACHE only memoizes load_json and documents
  are immutable during a session, so the cache is semantically transparent
  and resolve_ref reads fs directly.
- re.search is abstracted as a parameter search : String → String → Bool
  (pattern, string ↦ whether a match exists); no claim depends on regex
  semantics.
- validate in Python has no cycle guard and can recurse unboundedly, so the
  embedding takes an explicit recursion budget (fuel); Res.out records that
  the call needs recursion depth beyond the budget.  Python exceptions that
  escape the validator (KeyError from pointer descent, a failed document
  load) are the Res.err / Except.error outcomes.
- Schema keyword values are assumed shaped as in the SchemaNode data model
  (spec section 3).  Where Python would raise a TypeError on a malformed
  keyword value (for example a non-list "enum"), the embedding skips the
  keyword; each such spot is marked with a comment.  No claim involves a
  malformed schema.
-/

namespace SchemaValidate

/-- JSON values as produced by json.load. -/
inductive JSON where
  | null
  | bool (b : Bool)
  | int (n : Int)
  | float (q : Rat)
  | str (s : String)
  | arr (elems : List JSON)
  | obj (entries : List (String × JSON))

/-- Structural failures escaping the validator as Python exceptions: the
KeyError raised by pointer descent (payload: only the missing, already
unescaped segment — a Python KeyError carries nothing else), or a failed
document load at a path. -/
inductive SErr where
  | keyError (segment : String)
  | fileError (path : String)
deriving DecidableEq

/-- Outcome of running the unboundedly recursive Python validate under a
recursion budget: out = the budget was exceeded (the real code would keep
recursing), err = a Python exception escaped, ok = normal return. -/
inductive Res (α : Type) where
  | out
  | err (e : SErr)
  | ok (val : α)
deriving DecidableEq

def Res.bind {α β : Type} : Res α → (α → Res β) → Res β
  | .out, _ => .out
  | .err e, _ => .err e
  | .ok a, f => f a

/-- Python s.startswith(pre). -/
def startsWithPy (s pre : String) : Bool :=
  pre.toList.isPrefixOf s.toList

/-- Python s[1:]. -/
def strDrop1 (s : String) : String :=
  String.mk (s.toList.drop 1)

/-- Python s.endswith("/"). -/
def endsWithSlash (s : String) : Bool :=
  s.toList.getLast? = some '/'

/-- Accumulator form of Python str.split for a one-character separator. -/
def splitCharAux (c : Char) : List Char → List Char → List String
  | [], acc => [String.mk acc.reverse]
  | x :: xs, acc =>
    if x = c then String.mk acc.reverse :: splitCharAux c xs []
    else splitCharAux c xs (x :: acc)

/-- Python s.split(c) for a one-character separator c (so "".split("/") is
[""] and "a//b".split("/") is ["a", "", "b"], as in Python). -/
def splitChar (c : Char) (s : String) : List String :=
  splitCharAux c s.toList []

/-- Python str.replace for a two-character pattern and a one-character
replacement, scanning left to right without overlap, exactly as str.replace
does for the "~1" and "~0" escapes. -/
def replace2 (p1 p2 rep : Char) : List Char → List Char
  | [] => []
  | [c] => [c]
  | c1 :: c2 :: cs =>
    if c1 = p1 ∧ c2 = p2 then rep :: replace2 p1 p2 rep cs
    else c1 :: replace2 p1 p2 rep (c2 :: cs)

/-- One pointer segment unescaped: part.replace("~1", "/").replace("~0", "~")
in that order, as in the source. -/
def unescapeSeg (s : String) : String :=
  String.mk (replace2 '~' '0' '~' (replace2 '~' '1' '/' s.toList))

/-- Python "/".join-style concatenation. -/
def joinSep (sep : String) : List String → String
  | [] => ""
  | [x] => x
  | x :: y :: xs => x ++ sep ++ joinSep sep (y :: xs)

/-- posixpath.normpath, transcribed from CPython: collapse empty and "."
components, fold ".." where possible, keep one (or exactly two) leading
slashes, and return "." for an empty result. -/
def normpath (p : String) : String :=
  if p = "" then "."
  else
    let initialSlashes : Nat :=
      if startsWithPy p "/" then
        if startsWithPy p "//" ∧ ¬ startsWithPy p "///" then 2 else 1
      else 0
    let comps := splitChar '/' p
    let newComps := comps.foldl
      (fun acc comp =>
        if comp = "" ∨ comp = "." then acc
        else if comp ≠ ".." ∨ (initialSlashes = 0 ∧ acc = []) ∨ acc.getLast? = some ".." then
          acc ++ [comp]
        else if acc ≠ [] then acc.dropLast
        else acc)
      []
    let full := String.join (List.replicate initialSlashes "/") ++ joinSep "/" newComps
    if full = "" then "." else full

/-- posixpath.dirname: everything up to the last slash, with trailing slashes
stripped unless the prefix is all slashes. -/
def dirname (p : String) : String :=
  let cs := p.toList
  let head := (cs.reverse.dropWhile (fun c => c ≠ '/')).reverse
  if head ≠ [] ∧ head.any (fun c => c ≠ '/') then
    String.mk ((head.reverse.dropWhile (fun c => c = '/')).reverse)
  else String.mk head

/-- posixpath.join restricted to two components, as called in resolve_ref:
an absolute second component replaces the first; otherwise they are joined
with a slash unless the first is empty or already ends in one. -/
def pyJoin (a b : String) : String :=
  if startsWithPy b "/" then b
  else if a = "" ∨ endsWithSlash a then a ++ b
  else a ++ "/" ++ b

/-- The pieces of Python ref.partition("#") that resolve_ref uses: the text
before the first "#" and the text after it (empty when there is no "#"). -/
def breakHash : List Char → List Char × List Char
  | [] => ([], [])
  | c :: cs =>
    if c = '#' then ([], cs)
    else
      let r := breakHash cs
      (c :: r.1, r.2)

def partitionHash (ref : String) : String × String :=
  let r := breakHash ref.toList
  (String.mk r.1, String.mk r.2)

/-- Python dict lookup (first binding wins; a real dict has unique keys). -/
def jLookup : List (String × JSON) → String → Option JSON
  | [], _ => none
  | (k, v) :: es, key => if k = key then some v else jLookup es key

/-- schema.get(key) / key-in-schema on a schema node; a non-dict node has no
keys. -/
def jGet : JSON → String → Option JSON
  | .obj es, key => jLookup es key
  | _, _ => none

/-- schema.get(key) combined with the `is not None` guard used for type,
minLength, minimum, maximum, minItems and maxItems: a key explicitly mapped
to null behaves like an absent key. -/
def getNN (s : JSON) (key : String) : Option JSON :=
  match jGet s key with
  | some .null => none
  | r => r

def hasKey (es : List (String × JSON)) (key : String) : Bool :=
  (jLookup es key).isSome

/-- Key-ordered insertion; Python dict equality ignores insertion order, so
canonical forms sort entries by key before comparing. -/
def insEntry (e : String × JSON) : List (String × JSON) → List (String × JSON)
  | [] => [e]
  | x :: xs => if e.1 < x.1 then e :: x :: xs else x :: insEntry e xs

def sortEntries : List (String × JSON) → List (String × JSON)
  | [] => []
  | x :: xs => insEntry x (sortEntries xs)

mutual
/-- Canonical form realizing Python ==: bools and ints are mapped onto their
exact rational values (True == 1 == 1.0 in Python) and dict entries are
ordered by key (dict equality is order-insensitive).  Float NaN, which is
unequal to itself in Python, has no rational value and is out of scope. -/
def canon : JSON → JSON
  | .null => .null
  | .bool b => .float ((if b then 1 else 0 : Int) : Rat)
  | .int n => .float ((n : Int) : Rat)
  | .float q => .float q
  | .str s => .str s
  | .arr xs => .arr (canonList xs)
  | .obj es => .obj (sortEntries (canonObj es))

def canonList : List JSON → List JSON
  | [] => []
  | x :: xs => canon x :: canonList xs

def canonObj : List (String × JSON) → List (String × JSON)
  | [] => []
  | (k, v) :: es => (k, canon v) :: canonObj es
end

mutual
/-- Structural equality of JSON values. -/
def jeq : JSON → JSON → Bool
  | .null, .null => true
  | .bool a, .bool b => a = b
  | .int a, .int b => decide (a = b)
  | .float a, .float b => decide (a = b)
  | .str a, .str b => decide (a = b)
  | .arr a, .arr b => jeqList a b
  | .obj a, .obj b => jeqObj a b
  | _, _ => false

def jeqList : List JSON → List JSON → Bool
  | [], [] => true
  | x :: xs, y :: ys => jeq x y && jeqList xs ys
  | _, _ => false

def jeqObj : List (String × JSON) → List (String × JSON) → Bool
  | [], [] => true
  | (k, v) :: es, (k2, v2) :: es2 => decide (k = k2) && jeq v v2 && jeqObj es es2
  | _, _ => false
end

/-- Python == between two loaded values, as used by the `in` membership tests
of the enum check. -/
def pyEq (a b : JSON) : Bool :=
  jeq (canon a) (canon b)

/-- type_matches from the source.  Python tests expected == "object",
"array", ..., in order, and returns False when nothing matched (hence also
for a non-string expected).  The two isinstance(_, bool) exclusions for
"number" and "integer" are inherent in the constructors, and a float is
never an "integer" (isinstance(2.0, int) is False). -/
def type_matches (inst expected : JSON) : Bool :=
  match expected with
  | .str "object" => (match inst with | .obj _ => true | _ => false)
  | .str "array" => (match inst with | .arr _ => true | _ => false)
  | .str "string" => (match inst with | .str _ => true | _ => false)
  | .str "number" => (match inst with | .int _ => true | .float _ => true | _ => false)
  | .str "integer" => (match inst with | .int _ => true | _ => false)
  | .str "boolean" => (match inst with | .bool _ => true | _ => false)
  | .str "null" => (match inst with | .null => true | _ => false)
  | _ => false

/-- The descent loop of resolve_pointer: one dict lookup per segment, with
the segment unescaped first.  A missing key raises KeyError(key); indexing a
non-dict raises too (a TypeError in Python) and is modelled with the same
segment payload. -/
def descendParts : JSON → List String → Except SErr JSON
  | cur, [] => .ok cur
  | cur, part :: rest =>
    let key := unescapeSeg part
    match cur with
    | .obj es =>
      match jLookup es key with
      | some v => descendParts v rest
      | none => .error (.keyError key)
    | _ => .error (.keyError key)

/-- resolve_pointer from the source: empty or "#" returns the whole document;
otherwise strip a leading "#" then a leading "/", return the document if
nothing is left, else split on "/" and descend. -/
def resolve_pointer (schema : JSON) (pointer : String) : Except SErr JSON :=
  if pointer = "" ∨ pointer = "#" then .ok schema
  else
    let p1 := if startsWithPy pointer "#" then strDrop1 pointer else pointer
    let p2 := if startsWithPy p1 "/" then strDrop1 p1 else p1
    if p2 = "" then .ok schema
    else descendParts schema (splitChar '/' p2)

/-- resolve_ref from the source.  A ref starting with "#" resolves against
the current root and keeps base_dir and root unchanged.  Otherwise the ref is
partitioned at the first "#" into a file part and a pointer part, the target
path is normpath(join(base_dir, file_part)), the target document is loaded
(through the memoizing cache, modelled by fs), and the returned context is
(resolved node, dirname(target path), loaded document).  The Python
expression f"#pointer" if pointer else "#" always equals "#" ++ pointer. -/
def resolve_ref (fs : String → Option JSON) (ref base_dir : String) (root_schema : JSON) :
    Except SErr (JSON × String × JSON) :=
  if startsWithPy ref "#" then
    (resolve_pointer root_schema ref).map (fun n => (n, base_dir, root_schema))
  else
    let fp := (partitionHash ref).1
    let ptr := (partitionHash ref).2
    let file_path := normpath (pyJoin base_dir fp)
    match fs file_path with
    | none => .error (.fileError file_path)
    | some schema =>
      (resolve_pointer schema ("#" ++ ptr)).map (fun t => (t, dirname file_path, schema))

/-- Rendering of a float inside an error message.  Python prints the
shortest round-tripping decimal, which is not modelled; no claim mentions a
float rendering. -/
def ratStr (q : Rat) : String :=
  if q.den = 1 then toString q.num ++ ".0"
  else toString q.num ++ "/" ++ toString q.den

mutual
/-- Python repr of a loaded value, as interpolated by the {instance!r} and
{pattern!r} message pieces.  Strings use single quotes (escaping of quote
characters inside a string is not modelled; no claim renders such values). -/
def pyRepr : JSON → String
  | .null => "None"
  | .bool b => if b then "True" else "False"
  | .int n => toString n
  | .float q => ratStr q
  | .str s => "\x27" ++ s ++ "\x27"
  | .arr xs => "[" ++ joinSep ", " (pyReprList xs) ++ "]"
  | .obj es => "\x7b" ++ joinSep ", " (pyReprObj es) ++ "\x7d"

def pyReprList : List JSON → List String
  | [] => []
  | x :: xs => pyRepr x :: pyReprList xs

def pyReprObj : List (String × JSON) → List String
  | [] => []
  | (k, v) :: es => ("\x27" ++ k ++ "\x27: " ++ pyRepr v) :: pyReprObj es
end

/-- Python str() of a loaded value, as interpolated by plain f-string
pieces: identical to repr except on strings. -/
def pyStr : JSON → String
  | .str s => s
  | v => pyRepr v

/-- The numeric value of a schema bound or a numeric instance; Python
comparisons also accept a bool bound (True == 1). -/
def toNumQ : JSON → Option Rat
  | .int n => some ((n : Int) : Rat)
  | .float q => some q
  | .bool b => some ((if b then 1 else 0 : Int) : Rat)
  | _ => none

/-- The type keyword test: a list of names passes when any one matches, a
single name must match itself. -/
def typeOk (inst t : JSON) : Bool :=
  match t with
  | .arr ts => ts.any (fun x => type_matches inst x)
  | _ => type_matches inst t

/-- Step 3 of validate (the type keyword): some message means the check
failed and validate returns early with that message appended.  Both the
list branch and the single branch of the source produce the same f-string
f"path: expected type expected_type". -/
def typeCheckMsg (inst s : JSON) (p : String) : Option String :=
  match getNN s "type" with
  | some t => if typeOk inst t then none else some (p ++ ": expected type " ++ pyStr t)
  | none => none

/-- Step 4 of validate (enum): membership is Python ==; a present non-list
enum value would raise a TypeError in Python (malformed schema) and is
skipped here. -/
def enumCheck (inst s : JSON) (p : String) : List String :=
  match jGet s "enum" with
  | some (.arr vs) =>
    if vs.any (fun v => pyEq inst v) then []
    else [p ++ ": value " ++ pyRepr inst ++ " not in enum"]
  | _ => []

/-- Step 5 of validate (string keywords).  minLength uses the `is not None`
guard; pattern uses truthiness, so an empty pattern string is skipped; a
non-numeric minLength or non-string truthy pattern would raise a TypeError
in Python (malformed schema) and is skipped here. -/
def strCheck (search : String → String → Bool) (inst s : JSON) (p : String) : List String :=
  match inst with
  | .str text =>
    (match getNN s "minLength" with
     | some bound =>
       match toNumQ bound with
       | some q => if ((text.length : Int) : Rat) < q then [p ++ ": string length < " ++ pyStr bound] else []
       | none => []
     | none => []) ++
    (match jGet s "pattern" with
     | some (.str pat) =>
       if pat ≠ "" ∧ ¬ search pat text then
         [p ++ ": string does not match pattern \x27" ++ pat ++ "\x27"]
       else []
     | _ => [])
  | _ => []

/-- The minimum/maximum comparisons for a numeric instance of value iq. -/
def numBoundErrs (iq : Rat) (inst s : JSON) (p : String) : List String :=
  (match getNN s "minimum" with
   | some m =>
     match toNumQ m with
     | some mq => if iq < mq then [p ++ ": value " ++ pyStr inst ++ " < minimum " ++ pyStr m] else []
     | none => []
   | none => []) ++
  (match getNN s "maximum" with
   | some m =>
     match toNumQ m with
     | some mq => if mq < iq then [p ++ ": value " ++ pyStr inst ++ " > maximum " ++ pyStr m] else []
     | none => []
   | none => [])

/-- Step 6 of validate (numeric bounds), applying only to non-bool numbers
by constructor; both bounds are checked independently. -/
def numCheck (inst s : JSON) (p : String) : List String :=
  match inst with
  | .int n => numBoundErrs ((n : Int) : Rat) inst s p
  | .float q => numBoundErrs q inst s p
  | _ => []

/-- The minItems/maxItems part of step 7 of validate. -/
def arrSizeCheck (xs : List JSON) (s : JSON) (p : String) : List String :=
  (match getNN s "minItems" with
   | some bound =>
     match toNumQ bound with
     | some q => if ((xs.length : Int) : Rat) < q then [p ++ ": array has fewer than " ++ pyStr bound ++ " items"] else []
     | none => []
   | none => []) ++
  (match getNN s "maxItems" with
   | some bound =>
     match toNumQ bound with
     | some q => if q < ((xs.length : Int) : Rat) then [p ++ ": array has more than " ++ pyStr bound ++ " items"] else []
     | none => []
   | none => [])

/-- Is the key listed in required missing from the instance?  Python tests
key not in instance; a non-string key never equals a string dict key. -/
def reqMissing (kvs : List (String × JSON)) (key : JSON) : Bool :=
  match key with
  | .str k => ¬ hasKey kvs k
  | _ => true

/-- The required part of step 8 of validate: one error per listed name
absent from the instance, in list order.  schema.get("required", []) with a
non-list present value would raise in the loop (malformed schema) and is
treated as the default here. -/
def requiredCheck (kvs : List (String × JSON)) (s : JSON) (p : String) : List String :=
  match jGet s "required" with
  | some (.arr reqs) =>
    reqs.flatMap (fun key =>
      if reqMissing kvs key then
        [p ++ ": missing required property \x27" ++ pyStr key ++ "\x27"]
      else [])
  | _ => []

/-- The anyOf loop of validate: each option is validated in order; a raised
exception or exhausted budget propagates; an option with zero errors clears
the accumulator and breaks; otherwise its error list is appended and the
loop continues.  The caller only appends the synthetic error when the final
accumulator is non-empty. -/
def anyOfLoop (v : JSON → Res (List String)) :
    List JSON → List (List String) → Res (List (List String))
  | [], acc => .ok acc
  | o :: os, acc =>
    match v o with
    | .out => .out
    | .err e => .err e
    | .ok [] => .ok []
    | .ok (e :: es) => anyOfLoop v os (acc ++ [e :: es])

/-- The items loop of step 7: each element is validated against the items
schema with the path extended by its index; element errors are appended in
order and exceptions propagate. -/
def itemsLoop (v : JSON → String → Res (List String)) (p : String) :
    List JSON → Nat → Res (List String)
  | [], _ => .ok []
  | x :: xs, idx =>
    match v x (p ++ "[" ++ toString idx ++ "]") with
    | .out => .out
    | .err e => .err e
    | .ok es =>
      match itemsLoop v p xs (idx + 1) with
      | .out => .out
      | .err e => .err e
      | .ok rest => .ok (es ++ rest)

/-- The property loop of step 8: instance keys in insertion order; a key
declared in properties is validated recursively with the path extended by
.key; an undeclared key yields one error exactly when additionalProperties
is the literal false. -/
def propsLoop (v : JSON → JSON → String → Res (List String))
    (props : List (String × JSON)) (apFalse : Bool) (p : String) :
    List (String × JSON) → Res (List String)
  | [] => .ok []
  | (k, value) :: rest =>
    match jLookup props k with
    | some sub =>
      match v value sub (p ++ "." ++ k) with
      | .out => .out
      | .err e => .err e
      | .ok es =>
        match propsLoop v props apFalse p rest with
        | .out => .out
        | .err e => .err e
        | .ok more => .ok (es ++ more)
    | none =>
      let here := if apFalse then [p ++ ": additional property \x27" ++ k ++ "\x27 not allowed"] else []
      match propsLoop v props apFalse p rest with
      | .out => .out
      | .err e => .err e
      | .ok more => .ok (here ++ more)

/-- Step 1 of validate ($ref): resolve the reference and validate the
instance against the resolved node in the resolved context at the same
path.  A non-string $ref value would raise in Python (malformed schema). -/
def refStep (fs : String → Option JSON)
    (v : JSON → JSON → String → JSON → String → Res (List String))
    (inst s : JSON) (base_dir : String) (root : JSON) (p : String) : Res (List String) :=
  match jGet s "$ref" with
  | some (.str r) =>
    match resolve_ref fs r base_dir root with
    | .error e => .err e
    | .ok (ns, nb, nr) => v inst ns nb nr p
  | _ => .ok []

/-- Step 2 of validate (anyOf): run the loop; a non-empty final accumulator
yields exactly the one synthetic error; per-option errors are discarded.  A
present non-list anyOf would misbehave in Python (malformed schema) and is
skipped here. -/
def anyStep (v : JSON → JSON → String → JSON → String → Res (List String))
    (inst s : JSON) (base_dir : String) (root : JSON) (p : String) : Res (List String) :=
  match jGet s "anyOf" with
  | some (.arr opts) =>
    match anyOfLoop (fun o => v inst o base_dir root p) opts [] with
    | .out => .out
    | .err e => .err e
    | .ok [] => .ok []
    | .ok (_ :: _) => .ok [p ++ ": does not match anyOf options"]
  | _ => .ok []

/-- Step 7 of validate for a sequence instance: size bounds, then the items
loop when the keyword is present (even when present as null, where Python
would then fail on the elements; malformed schema). -/
def arrStep (v : JSON → JSON → String → JSON → String → Res (List String))
    (inst s : JSON) (base_dir : String) (root : JSON) (p : String) : Res (List String) :=
  match inst with
  | .arr xs =>
    let sizeErrs := arrSizeCheck xs s p
    match jGet s "items" with
    | some isch =>
      match itemsLoop (fun x pp => v x isch base_dir root pp) p xs 0 with
      | .out => .out
      | .err e => .err e
      | .ok ies => .ok (sizeErrs ++ ies)
    | none => .ok sizeErrs
  | _ => .ok []

/-- The test schema.get("additionalProperties") is False: true exactly for
the literal false, not for an absent keyword or any other value. -/
def apIsFalse (s : JSON) : Bool :=
  match jGet s "additionalProperties" with
  | some (.bool false) => true
  | _ => false

/-- Step 8 of validate for a mapping instance: required errors first, then
the property loop.  properties defaults to the empty dict; a present
non-dict properties value would raise in Python (malformed schema). -/
def objStep (v : JSON → JSON → String → JSON → String → Res (List String))
    (inst s : JSON) (base_dir : String) (root : JSON) (p : String) : Res (List String) :=
  match inst with
  | .obj kvs =>
    let reqErrs := requiredCheck kvs s p
    let props := match jGet s "properties" with | some (.obj es) => es | _ => []
    match propsLoop (fun value sub pp => v value sub base_dir root pp) props (apIsFalse s) p kvs with
    | .out => .out
    | .err e => .err e
    | .ok pes => .ok (reqErrs ++ pes)
  | _ => .ok []

/-- Steps 3 through 8 of validate: the type check with its early return (the
errors accumulated by steps 1 and 2 are prepended by the caller), then enum,
string, numeric, sequence and mapping checks in source order. -/
def tailStep (search : String → String → Bool)
    (v : JSON → JSON → String → JSON → String → Res (List String))
    (inst s : JSON) (base_dir : String) (root : JSON) (p : String) : Res (List String) :=
  match typeCheckMsg inst s p with
  | some m => .ok [m]
  | none =>
    let e4 := enumCheck inst s p
    let e5 := strCheck search inst s p
    let e6 := numCheck inst s p
    (arrStep v inst s base_dir root p).bind fun e7 =>
    (objStep v inst s base_dir root p).bind fun e8 =>
    .ok (e4 ++ e5 ++ e6 ++ e7 ++ e8)

/-- validate from the source, with an explicit recursion budget: the Python
function has no cycle guard and recurses through $ref, anyOf options, items
elements and property values; Res.out records that the call needs more
recursion depth than the budget allows (the real code would keep going). -/
def validate (fs : String → Option JSON) (search : String → String → Bool) :
    Nat → JSON → JSON → String → JSON → String → Res (List String)
  | 0, _, _, _, _, _ => .out
  | fuel + 1, inst, s, base_dir, root, p =>
    (refStep fs (fun i2 s2 b2 r2 p2 => validate fs search fuel i2 s2 b2 r2 p2) inst s base_dir root p).bind fun e1 =>
    (anyStep (fun i2 s2 b2 r2 p2 => validate fs search fuel i2 s2 b2 r2 p2) inst s base_dir root p).bind fun e2 =>
    (tailStep search (fun i2 s2 b2 r2 p2 => validate fs search fuel i2 s2 b2 r2 p2) inst s base_dir root p).bind fun e3 =>
    Res.ok (e1 ++ e2 ++ e3)

/-- A session with no schema files on disk. -/
def fsEmpty : String → Option JSON := fun _ => none

/-- A regex matcher that never finds a match (re.search is abstract; concrete
evaluations below never reach the pattern keyword). -/
def searchNone : String → String → Bool := fun _ _ => false

/-- The document a.json of a two-file reference cycle a.json → b.json → a.json. -/
def docA : JSON := .obj [("$ref", .str "b.json#")]

/-- The document b.json of the cycle. -/
def docB : JSON := .obj [("$ref", .str "a.json#")]

/-- The session filesystem holding the two cyclic documents. -/
def cycFs : String → Option JSON :=
  fun path => if path = "a.json" then some docA else if path = "b.json" then some docB else none

/-- A one-file session for exercising a cross-file reference. -/
def defsDoc : JSON := .obj [("a", .int 1)]

def defsFs : String → Option JSON :=
  fun path => if path = "defs.json" then some defsDoc else none

theorem Res.bind_out {α β : Type} (f : α → Res β) : (Res.out).bind f = .out := rfl

theorem Res.bind_err {α β : Type} (e : SErr) (f : α → Res β) : (Res.err e).bind f = .err e := rfl

theorem Res.bind_ok {α β : Type} (a : α) (f : α → Res β) : (Res.ok a).bind f = f a := rfl

/-- One unfolding of the recursive validate: the three phases run in order,
exceptions and budget exhaustion short-circuit, and the error lists are
concatenated. -/
theorem validate_succ (fs : String → Option JSON) (search : String → String → Bool)
    (fuel : Nat) (inst s : JSON) (base_dir : String) (root : JSON) (p : String) :
    validate fs search (fuel + 1) inst s base_dir root p =
      (refStep fs (validate fs search fuel) inst s base_dir root p).bind fun e1 =>
      (anyStep (validate fs search fuel) inst s base_dir root p).bind fun e2 =>
      (tailStep search (validate fs search fuel) inst s base_dir root p).bind fun e3 =>
      Res.ok (e1 ++ e2 ++ e3) := rfl

/-- With no declared properties and additionalProperties not the literal
false, the property loop accepts every key silently. -/
theorem propsLoop_nilProps (v : JSON → JSON → String → Res (List String)) (p : String) :
    ∀ kvs, propsLoop v [] false p kvs = .ok []
  | [] => rfl
  | (k, value) :: rest => by
    simp [propsLoop, jLookup, propsLoop_nilProps v p rest]

/-- The anyOf loop when every option terminates normally and some option has
zero errors: the loop ends with an empty accumulator. -/
theorem anyOfLoop_success (v : JSON → Res (List String)) :
    ∀ opts acc, (∀ o ∈ opts, ∃ es, v o = .ok es) → (∃ o ∈ opts, v o = .ok []) →
      anyOfLoop v opts acc = .ok []
  | [], acc, _, hex => by simp at hex
  | o :: os, acc, hterm, hex => by
    obtain ⟨es, ho⟩ := hterm o (by simp)
    match es, ho with
    | [], ho => simp [anyOfLoop, ho]
    | e :: es, ho =>
      have hex2 : ∃ o2 ∈ os, v o2 = .ok [] := by
        obtain ⟨o2, hmem, hval⟩ := hex
        rcases List.mem_cons.mp hmem with rfl | h2
        · rw [ho] at hval; cases hval
        · exact ⟨o2, h2, hval⟩
      have hterm2 : ∀ o2 ∈ os, ∃ es2, v o2 = .ok es2 :=
        fun o2 h2 => hterm o2 (List.mem_cons_of_mem o h2)
      simp [anyOfLoop, ho, anyOfLoop_success v os _ hterm2 hex2]

/-- The anyOf loop when every option terminates normally with at least one
error: the loop appends one error list per option to the accumulator. -/
theorem anyOfLoop_allFail (v : JSON → Res (List String)) :
    ∀ opts acc, (∀ o ∈ opts, ∃ e es, v o = .ok (e :: es)) →
      ∃ ls, anyOfLoop v opts acc = .ok (acc ++ ls) ∧ ls.length = opts.length
  | [], acc, _ => ⟨[], by simp [anyOfLoop]⟩
  | o :: os, acc, hall => by
    obtain ⟨e, es, ho⟩ := hall o (by simp)
    obtain ⟨ls, hloop, hlen⟩ :=
      anyOfLoop_allFail v os (acc ++ [e :: es]) (fun o2 h2 => hall o2 (List.mem_cons_of_mem o h2))
    exact ⟨(e :: es) :: ls, by simp [anyOfLoop, ho, hloop], by simp [hlen]⟩

/-- Length of a filterMap-style flatMap producing one element per hit. -/
theorem flatMap_if_length (l : List JSON) (q : JSON → Bool) (m : JSON → String) :
    (l.flatMap (fun x => if q x then [m x] else [])).length = (l.filter q).length := by
  induction l with
  | nil => rfl
  | cons x xs ih =>
    by_cases h : q x <;> simp [List.flatMap_cons, h, ih, List.filter_cons]

/-- The property loop, characterized entry by entry: a declared key
contributes its recursive validation result (assumed to terminate normally,
with result g), an undeclared key contributes exactly one error when
apFalse and nothing otherwise, in instance order. -/
theorem propsLoop_spec (v : JSON → JSON → String → Res (List String))
    (props : List (String × JSON)) (apFalse : Bool) (p : String) (g : String → JSON → List String) :
    ∀ kvs, (∀ k value, (k, value) ∈ kvs → ∀ sub, jLookup props k = some sub →
        v value sub (p ++ "." ++ k) = .ok (g k value)) →
      propsLoop v props apFalse p kvs = .ok (kvs.flatMap (fun kv =>
        match jLookup props kv.1 with
        | some _ => g kv.1 kv.2
        | none =>
          if apFalse then [p ++ ": additional property \x27" ++ kv.1 ++ "\x27 not allowed"]
          else []))
  | [], _ => rfl
  | (k, value) :: rest, h => by
    have hrest := propsLoop_spec v props apFalse p g rest
      (fun k2 v2 hm => h k2 v2 (List.mem_cons_of_mem _ hm))
    cases hl : jLookup props k with
    | some sub =>
      have hv := h k value (by simp) sub hl
      simp [propsLoop, hl, hv, hrest]
    | none => simp [propsLoop, hl, hrest]

/-- Along the cycle a.json → b.json → a.json, every recursion budget is
exhausted: validating against either document never returns, whatever the
instance, root and path. -/
theorem cyc_out (inst : JSON) (p : String) :
    ∀ fuel rt, validate cycFs searchNone fuel inst docA "" rt p = .out ∧
      validate cycFs searchNone fuel inst docB "" rt p = .out := by
  intro fuel
  induction fuel with
  | zero => intro rt; exact ⟨rfl, rfl⟩
  | succ n ih =>
    intro rt
    constructor
    · have h1 : refStep cycFs (validate cycFs searchNone n) inst docA "" rt p
          = validate cycFs searchNone n inst docB "" docB p := rfl
      rw [validate_succ, h1, (ih docB).2]
      rfl
    · have h1 : refStep cycFs (validate cycFs searchNone n) inst docB "" rt p
          = validate cycFs searchNone n inst docA "" docA p := rfl
      rw [validate_succ, h1, (ih docA).1]
      rfl

/-- C1: the code has no cycle guard, so on the reference cycle
a.json → b.json → a.json validate does NOT terminate with a cyclic-reference
error: for every recursion budget the computation still wants to recurse
deeper (in Python it recurses until the interpreter kills it with
RecursionError), and no error — cyclic or otherwise — is ever produced.
This refutes the claimed behavior and exhibits the code bug the spec
acknowledges in its design notes. -/
theorem cyclic_ref_unbounded_recursion :
    ∀ fuel, validate cycFs searchNone fuel .null docA "" docA "$" = .out :=
  fun fuel => (cyc_out .null "$" fuel docA).1

/-- C5: validating any instance against the schema node consisting solely of
a self-reference to the document root produces exactly the result of
validating the instance directly against the root, in the same context at
the same path (the wrapper node contributes no error of its own; the +1 on
the budget accounts for the one extra call the wrapper makes). -/
theorem ref_root_identity (fs : String → Option JSON) (search : String → String → Bool)
    (fuel : Nat) (inst rt : JSON) (base_dir p : String) :
    validate fs search (fuel + 1) inst (.obj [("$ref", .str "#")]) base_dir rt p =
      validate fs search fuel inst rt base_dir rt p := by
  have h1 : refStep fs (validate fs search fuel) inst (.obj [("$ref", .str "#")]) base_dir rt p
      = validate fs search fuel inst rt base_dir rt p := rfl
  have h2 : anyStep (validate fs search fuel) inst (.obj [("$ref", .str "#")]) base_dir rt p
      = .ok [] := rfl
  have h3 : tailStep search (validate fs search fuel) inst (.obj [("$ref", .str "#")]) base_dir rt p
      = .ok [] := by
    cases inst <;>
      simp [tailStep, typeCheckMsg, getNN, jGet, jLookup, enumCheck, strCheck, numCheck, numBoundErrs,
        arrStep, objStep, arrSizeCheck, requiredCheck, apIsFalse, propsLoop_nilProps, Res.bind]
  rw [validate_succ, h1]
  cases validate fs search fuel inst rt base_dir rt p with
  | out => rfl
  | err e => rfl
  | ok es => simp [Res.bind, h2, h3]

/-- C8: resolve_pointer on a missing segment raises a KeyError whose payload
is only the unescaped segment; two calls with different original pointers
("#/b" and "b") raise identical errors, so the raised error cannot name the
full original pointer, contradicting the claimed error contract (the spec
itself lists this crash as an unresolved robustness gap).  The positive
parts hold: the error does name the unresolved segment and nothing is
silently substituted or skipped. -/
theorem resolve_pointer_keyerror_payload :
    resolve_pointer (.obj [("a", .int 1)]) "#/b" = .error (.keyError "b") ∧
      resolve_pointer (.obj [("a", .int 1)]) "b" = .error (.keyError "b") ∧
      resolve_pointer (.obj [("a", .int 1)]) "" = .ok (.obj [("a", .int 1)]) ∧
      resolve_pointer (.obj [("a", .int 1)]) "#" = .ok (.obj [("a", .int 1)]) ∧
      resolve_pointer (.obj [("a~b/c", .int 2)]) "#/a~0b~1c" = .ok (.int 2) :=
  ⟨rfl, rfl, rfl, rfl, rfl⟩

/-- C9: a schema node declaring no recognized keyword accepts every
instance: validating any value against the empty node yields the empty
error list. -/
theorem empty_schema_accepts_all (fs : String → Option JSON) (search : String → String → Bool)
    (fuel : Nat) (inst : JSON) (base_dir : String) (rt : JSON) (p : String) :
    validate fs search (fuel + 1) inst (.obj []) base_dir rt p = .ok [] := by
  have h3 : tailStep search (validate fs search fuel) inst (.obj []) base_dir rt p = .ok [] := by
    cases inst <;>
      simp [tailStep, typeCheckMsg, getNN, jGet, jLookup, enumCheck, strCheck, numCheck, numBoundErrs,
        arrStep, objStep, arrSizeCheck, requiredCheck, apIsFalse, propsLoop_nilProps, Res.bind]
  rw [validate_succ]
  simp [Res.bind, h3]
  rfl

/-- C10: the enum membership test is Python ==, under which booleans equal
the numbers 0 and 1: the instance True passes enum [1] and the instance 1
passes enum [True], yielding no error at all. -/
theorem enum_bool_int_equality (fs : String → Option JSON) (search : String → String → Bool)
    (fuel : Nat) (base_dir : String) (rt : JSON) (p : String) :
    validate fs search (fuel + 1) (.bool true) (.obj [("enum", .arr [.int 1])]) base_dir rt p = .ok [] ∧
      validate fs search (fuel + 1) (.int 1) (.obj [("enum", .arr [.bool true])]) base_dir rt p = .ok [] :=
  ⟨rfl, rfl⟩

/-- C2: when a node declares type and the instance matches none of the
declared name(s) — a list passes when any one name matches — validate
appends exactly one type-mismatch error at the current path and returns
immediately: the result is whatever the $ref and anyOf phases produced
followed by that single error, and no later keyword (enum, minLength,
pattern, minimum, maximum, minItems, maxItems, items, required, properties,
additionalProperties) contributes anything — the right-hand side mentions
only refStep and anyStep, which read only the $ref and anyOf keywords. -/
theorem type_mismatch_early_return (fs : String → Option JSON) (search : String → String → Bool)
    (fuel : Nat) (inst s : JSON) (base_dir : String) (rt : JSON) (p : String) (t : JSON)
    (h1 : getNN s "type" = some t) (h2 : typeOk inst t = false) :
    validate fs search (fuel + 1) inst s base_dir rt p =
      (refStep fs (validate fs search fuel) inst s base_dir rt p).bind fun e1 =>
      (anyStep (validate fs search fuel) inst s base_dir rt p).bind fun e2 =>
      Res.ok (e1 ++ e2 ++ [p ++ ": expected type " ++ pyStr t]) := by
  have ht : typeCheckMsg inst s p = some (p ++ ": expected type " ++ pyStr t) := by
    simp [typeCheckMsg, h1, h2]
  have h3 : tailStep search (validate fs search fuel) inst s base_dir rt p
      = .ok [p ++ ": expected type " ++ pyStr t] := by
    simp [tailStep, ht]
  rw [validate_succ]
  cases refStep fs (validate fs search fuel) inst s base_dir rt p with
  | out => rfl
  | err e => rfl
  | ok e1 =>
    cases anyStep (validate fs search fuel) inst s base_dir rt p with
    | out => rfl
    | err e => rfl
    | ok e2 => simp [Res.bind, h3]

/-- C2 witness: the string instance "x" against a node demanding integer,
with minLength and enum constraints also present, yields exactly the one
type error; the later keywords contribute nothing. -/
theorem type_mismatch_early_return_witness :
    validate fsEmpty searchNone 1 (.str "x")
      (.obj [("type", .str "integer"), ("minLength", .int 99), ("enum", .arr [])]) "" .null "$"
      = .ok ["$: expected type integer"] := by
  have h := type_mismatch_early_return fsEmpty searchNone 0 (.str "x")
    (.obj [("type", .str "integer"), ("minLength", .int 99), ("enum", .arr [])]) "" .null "$"
    (.str "integer") rfl rfl
  rw [h]
  rfl

/-- C3: anyOf with branches that all terminate normally at the given
budget.  If at least one branch yields zero errors, the anyOf keyword
contributes no error to the result: the result is the $ref phase followed
directly by the remaining keyword phases.  If there is at least one branch
and every branch yields at least one error, exactly one synthetic error at
the current path is inserted between those phases and every per-branch
sub-error is discarded. -/
theorem anyOf_contribution (fs : String → Option JSON) (search : String → String → Bool)
    (fuel : Nat) (inst s : JSON) (base_dir : String) (rt : JSON) (p : String)
    (opts : List JSON) (hs : jGet s "anyOf" = some (.arr opts)) :
    ((∀ o ∈ opts, ∃ es, validate fs search fuel inst o base_dir rt p = .ok es) →
     (∃ o ∈ opts, validate fs search fuel inst o base_dir rt p = .ok []) →
      validate fs search (fuel + 1) inst s base_dir rt p =
        (refStep fs (validate fs search fuel) inst s base_dir rt p).bind fun e1 =>
        (tailStep search (validate fs search fuel) inst s base_dir rt p).bind fun e3 =>
        Res.ok (e1 ++ e3))
    ∧ (opts ≠ [] →
       (∀ o ∈ opts, ∃ e es, validate fs search fuel inst o base_dir rt p = .ok (e :: es)) →
      validate fs search (fuel + 1) inst s base_dir rt p =
        (refStep fs (validate fs search fuel) inst s base_dir rt p).bind fun e1 =>
        (tailStep search (validate fs search fuel) inst s base_dir rt p).bind fun e3 =>
        Res.ok (e1 ++ (p ++ ": does not match anyOf options") :: e3)) := by
  constructor
  · intro hterm hex
    have ha : anyStep (validate fs search fuel) inst s base_dir rt p = .ok [] := by
      simp [anyStep, hs,
        anyOfLoop_success (fun o => validate fs search fuel inst o base_dir rt p) opts [] hterm hex]
    rw [validate_succ]
    cases refStep fs (validate fs search fuel) inst s base_dir rt p with
    | out => rfl
    | err e => rfl
    | ok e1 =>
      rw [Res.bind_ok, ha, Res.bind_ok]
      cases tailStep search (validate fs search fuel) inst s base_dir rt p with
      | out => rfl
      | err e => rfl
      | ok e3 => simp [Res.bind]
  · intro hne hall
    obtain ⟨ls, hloop, hlen⟩ :=
      anyOfLoop_allFail (fun o => validate fs search fuel inst o base_dir rt p) opts [] hall
    have ha : anyStep (validate fs search fuel) inst s base_dir rt p
        = .ok [p ++ ": does not match anyOf options"] := by
      cases ls with
      | nil =>
        exact absurd (by simpa using hlen.symm) hne
      | cons l ls2 => simp [anyStep, hs, hloop]
    rw [validate_succ]
    cases refStep fs (validate fs search fuel) inst s base_dir rt p with
    | out => rfl
    | err e => rfl
    | ok e1 =>
      rw [Res.bind_ok, ha, Res.bind_ok]
      cases tailStep search (validate fs search fuel) inst s base_dir rt p with
      | out => rfl
      | err e => rfl
      | ok e3 => simp [Res.bind]

/-- C3 witness: the integer 5 against anyOf [string-node, integer-node]
satisfies exactly the second branch and yields the empty result. -/
theorem anyOf_contribution_witness :
    validate fsEmpty searchNone 2 (.int 5)
      (.obj [("anyOf", .arr [.obj [("type", .str "string")], .obj [("type", .str "integer")]])])
      "" .null "$" = .ok [] := by
  have hterm : ∀ o ∈ [JSON.obj [("type", .str "string")], JSON.obj [("type", .str "integer")]],
      ∃ es, validate fsEmpty searchNone 1 (.int 5) o "" .null "$" = .ok es := by
    intro o ho
    fin_cases ho
    · exact ⟨["$: expected type string"], rfl⟩
    · exact ⟨[], rfl⟩
  have hex : ∃ o ∈ [JSON.obj [("type", .str "string")], JSON.obj [("type", .str "integer")]],
      validate fsEmpty searchNone 1 (.int 5) o "" .null "$" = .ok [] :=
    ⟨.obj [("type", .str "integer")], by simp, rfl⟩
  have h := (anyOf_contribution fsEmpty searchNone 1 (.int 5)
    (.obj [("anyOf", .arr [.obj [("type", .str "string")], .obj [("type", .str "integer")]])])
    "" .null "$" [.obj [("type", .str "string")], .obj [("type", .str "integer")]] rfl).1 hterm hex
  rw [h]
  rfl

/-- C4: the context returned by resolve_ref.  A ref starting with "#" keeps
both the base directory and the root unchanged and only moves the current
node (resolved against the same root); a ref with a file part switches the
base directory and the root together to the target file: the directory is
dirname of the normalized target path and the root is exactly the document
loaded from that same path, with the node resolved inside it. -/
theorem resolve_ref_context_switch (fs : String → Option JSON) (ref base_dir : String) (rt : JSON) :
    (startsWithPy ref "#" = true →
      ∀ n b2 r2, resolve_ref fs ref base_dir rt = .ok (n, b2, r2) →
        b2 = base_dir ∧ r2 = rt ∧ resolve_pointer rt ref = .ok n)
    ∧ (startsWithPy ref "#" = false →
      ∀ n b2 r2, resolve_ref fs ref base_dir rt = .ok (n, b2, r2) →
        b2 = dirname (normpath (pyJoin base_dir (partitionHash ref).1)) ∧
        fs (normpath (pyJoin base_dir (partitionHash ref).1)) = some r2 ∧
        resolve_pointer r2 ("#" ++ (partitionHash ref).2) = .ok n) := by
  constructor
  · intro h n b2 r2 heq
    simp only [resolve_ref, h, if_true] at heq
    cases hrp : resolve_pointer rt ref with
    | error e => rw [hrp] at heq; cases heq
    | ok node =>
      rw [hrp] at heq
      simp only [Except.map, Except.ok.injEq, Prod.mk.injEq] at heq
      obtain ⟨rfl, rfl, rfl⟩ := heq
      exact ⟨rfl, rfl, rfl⟩
  · intro h n b2 r2 heq
    simp only [resolve_ref, h, Bool.false_eq_true, if_false] at heq
    cases hfs : fs (normpath (pyJoin base_dir (partitionHash ref).1)) with
    | none => simp only [hfs] at heq; exact (Except.noConfusion heq)
    | some doc =>
      simp only [hfs] at heq
      cases hrp : resolve_pointer doc ("#" ++ (partitionHash ref).2) with
      | error e => simp [hrp, Except.map] at heq
      | ok node =>
        simp only [hrp, Except.map, Except.ok.injEq, Prod.mk.injEq] at heq
        obtain ⟨rfl, rfl, rfl⟩ := heq
        exact ⟨rfl, rfl, hrp⟩

/-- C4 witness: the same-document ref "#/a" keeps the context ("dir",
defsDoc) and resolves the node against the same root; the cross-file ref
"defs.json#/a" moves the base directory to the directory of the normalized
target path and the root to the document loaded from that very path. -/
theorem resolve_ref_context_switch_witness :
    ("dir" = "dir" ∧ defsDoc = defsDoc ∧ resolve_pointer defsDoc "#/a" = .ok (.int 1)) ∧
      ("" = dirname (normpath (pyJoin "" (partitionHash "defs.json#/a").1)) ∧
        defsFs (normpath (pyJoin "" (partitionHash "defs.json#/a").1)) = some defsDoc ∧
        resolve_pointer defsDoc ("#" ++ (partitionHash "defs.json#/a").2) = .ok (.int 1)) :=
  ⟨(resolve_ref_context_switch defsFs "#/a" "dir" defsDoc).1 rfl (.int 1) "dir" defsDoc rfl,
   (resolve_ref_context_switch defsFs "defs.json#/a" "" .null).2 rfl (.int 1) "" defsDoc rfl⟩

/-- C6: for a mapping instance against a node carrying properties (declared
keys validating with results g at the given budget) and no other recognized
keyword, each undeclared key yields exactly one additional-property error
naming that key precisely when additionalProperties is the literal false
(apIsFalse); when the keyword is absent or holds any other value, the
undeclared keys yield nothing. -/
theorem additionalProperties_behavior (fs : String → Option JSON) (search : String → String → Bool)
    (fuel : Nat) (kvs P : List (String × JSON)) (s : JSON) (g : String → JSON → List String)
    (base_dir : String) (rt : JSON) (p : String)
    (h1 : jGet s "$ref" = none) (h2 : jGet s "anyOf" = none) (h3 : getNN s "type" = none)
    (h4 : jGet s "enum" = none) (h5 : jGet s "required" = none)
    (h6 : jGet s "properties" = some (.obj P))
    (hg : ∀ k value, (k, value) ∈ kvs → ∀ sub, jLookup P k = some sub →
        validate fs search fuel value sub base_dir rt (p ++ "." ++ k) = .ok (g k value)) :
    validate fs search (fuel + 1) (.obj kvs) s base_dir rt p =
      .ok (kvs.flatMap (fun kv =>
        match jLookup P kv.1 with
        | some _ => g kv.1 kv.2
        | none =>
          if apIsFalse s then [p ++ ": additional property \x27" ++ kv.1 ++ "\x27 not allowed"]
          else [])) := by
  have hr : refStep fs (validate fs search fuel) (.obj kvs) s base_dir rt p = .ok [] := by
    simp [refStep, h1]
  have ha : anyStep (validate fs search fuel) (.obj kvs) s base_dir rt p = .ok [] := by
    simp [anyStep, h2]
  have hloop := propsLoop_spec (fun value sub pp => validate fs search fuel value sub base_dir rt pp)
    P (apIsFalse s) p g kvs hg
  have ht : tailStep search (validate fs search fuel) (.obj kvs) s base_dir rt p
      = .ok (kvs.flatMap (fun kv =>
        match jLookup P kv.1 with
        | some _ => g kv.1 kv.2
        | none =>
          if apIsFalse s then [p ++ ": additional property \x27" ++ kv.1 ++ "\x27 not allowed"]
          else [])) := by
    simp [tailStep, typeCheckMsg, h3, enumCheck, h4, strCheck, numCheck, arrStep, objStep,
      requiredCheck, h5, h6, hloop, Res.bind]
  rw [validate_succ, hr, Res.bind_ok, ha, Res.bind_ok, ht, Res.bind_ok]
  simp

/-- C6 witness: the instance with keys a and extra, against properties
declaring only a and additionalProperties false, yields exactly the one
error naming extra; the declared key a validates cleanly. -/
theorem additionalProperties_behavior_witness :
    validate fsEmpty searchNone 2
      (.obj [("a", .int 1), ("extra", .int 2)])
      (.obj [("properties", .obj [("a", .obj [])]), ("additionalProperties", .bool false)])
      "" .null "$"
      = .ok ["$: additional property \x27extra\x27 not allowed"] := by
  have hg : ∀ k value, (k, value) ∈ [("a", JSON.int 1), ("extra", JSON.int 2)] →
      ∀ sub, jLookup [("a", JSON.obj [])] k = some sub →
        validate fsEmpty searchNone 1 value sub "" .null ("$" ++ "." ++ k)
          = .ok ((fun _ _ => ([] : List String)) k value) := by
    intro k value hkv sub hsub
    fin_cases hkv
    · cases hsub
      rfl
    · cases hsub
  have h := additionalProperties_behavior fsEmpty searchNone 1
    [("a", .int 1), ("extra", .int 2)] [("a", .obj [])]
    (.obj [("properties", .obj [("a", .obj [])]), ("additionalProperties", .bool false)])
    (fun _ _ => []) "" .null "$" rfl rfl rfl rfl rfl rfl hg
  rw [h]
  rfl

/-- C7: for a mapping instance against a node carrying a required list and
no other recognized keyword, validate yields exactly one missing-property
error per listed name absent from the instance, in list order and each
path-qualified by its own name; an instance missing N of the listed names
therefore yields exactly N such errors. -/
theorem required_missing_errors (fs : String → Option JSON) (search : String → String → Bool)
    (fuel : Nat) (kvs : List (String × JSON)) (reqs : List JSON) (s : JSON)
    (base_dir : String) (rt : JSON) (p : String)
    (h1 : jGet s "$ref" = none) (h2 : jGet s "anyOf" = none) (h3 : getNN s "type" = none)
    (h4 : jGet s "enum" = none) (h5 : jGet s "required" = some (.arr reqs))
    (h6 : jGet s "properties" = none) (h7 : jGet s "additionalProperties" = none) :
    validate fs search (fuel + 1) (.obj kvs) s base_dir rt p =
      .ok (reqs.flatMap (fun key =>
        if reqMissing kvs key then [p ++ ": missing required property \x27" ++ pyStr key ++ "\x27"]
        else []))
    ∧ (reqs.flatMap (fun key =>
        if reqMissing kvs key then [p ++ ": missing required property \x27" ++ pyStr key ++ "\x27"]
        else [])).length = (reqs.filter (fun key => reqMissing kvs key)).length := by
  refine ⟨?_, flatMap_if_length reqs _ _⟩
  have hr : refStep fs (validate fs search fuel) (.obj kvs) s base_dir rt p = .ok [] := by
    simp [refStep, h1]
  have ha : anyStep (validate fs search fuel) (.obj kvs) s base_dir rt p = .ok [] := by
    simp [anyStep, h2]
  have hap : apIsFalse s = false := by simp [apIsFalse, h7]
  have ht : tailStep search (validate fs search fuel) (.obj kvs) s base_dir rt p
      = .ok (reqs.flatMap (fun key =>
        if reqMissing kvs key then [p ++ ": missing required property \x27" ++ pyStr key ++ "\x27"]
        else [])) := by
    simp [tailStep, typeCheckMsg, h3, enumCheck, h4, strCheck, numCheck, arrStep, objStep,
      requiredCheck, h5, h6, hap, propsLoop_nilProps, Res.bind]
  rw [validate_succ, hr, Res.bind_ok, ha, Res.bind_ok, ht, Res.bind_ok]
  simp

/-- C7 witness: an instance holding only a, against required [a, c, d],
yields exactly the two errors for c and d, each naming its own key, and the
error count equals the number of missing names. -/
theorem required_missing_errors_witness :
    validate fsEmpty searchNone 1 (.obj [("a", .int 1)])
      (.obj [("required", .arr [.str "a", .str "c", .str "d"])]) "" .null "$"
      = .ok ["$: missing required property \x27c\x27", "$: missing required property \x27d\x27"] := by
  have h := required_missing_errors fsEmpty searchNone 0 [("a", .int 1)]
    [.str "a", .str "c", .str "d"]
    (.obj [("required", .arr [.str "a", .str "c", .str "d"])]) "" .null "$"
    rfl rfl rfl rfl rfl rfl rfl
  rw [h.1]
  rfl

end SchemaValidate
